import Mathlib

/-!
Verification of the filesystem-server path-safety core
(`filesystem_server/security.py`, `service.py`, `api.py`) against its
natural-language specification.

The Python code is shallowly embedded:

* An absolute filesystem path is the list of its name components below the
  filesystem root (`pathlib.Path.parts` without the leading separator entry,
  which never carries a `..` and never starts with a dot).
* `Path.resolve()` is modelled lexically (`.` dropped, `..` removing the
  previous component, a no-op at the root); the model has no symlinks.
* The filesystem is an association list from absolute paths to entries
  (regular file with text content, or directory).  OS permission bits
  (`os.access`) are modelled as always granted; the claims under study do
  not depend on them.
* `hashlib.sha256(...).hexdigest()` is an external library call; it is
  modelled as an unspecified deterministic digest function carried in the
  `SecurityManager` record, since no claim depends on actual digest values,
  only on the digest of equal content being equal.
* Exceptions become `Except`/`Option` results, with one constructor per
  `except` clause actually discriminated by the code.
-/

namespace RideFs

/-- A path component (one entry of `pathlib.Path.parts`). -/
abbrev Seg := String

/-- An absolute path, as its component list below the filesystem root. -/
abbrev AbsPath := List Seg

/-- Lexical model of `pathlib.Path.resolve()` on an absolute path:
`.` components are dropped, `..` removes the previous component and is a
no-op at the root.  (The model contains no symlinks.) -/
def resolveParts (parts : List Seg) : AbsPath :=
  parts.foldl
    (fun acc seg =>
      if seg = "." then acc
      else if seg = ".." then acc.dropLast
      else acc ++ [seg]) []

/-- Boolean component-prefix test, the model of
`PurePath.is_relative_to` / a successful `PurePath.relative_to`. -/
def segsPrefix : List Seg → List Seg → Bool
  | [], _ => true
  | _ :: _, [] => false
  | a :: as, b :: bs => a == b && segsPrefix as bs

/-- Model of `Path.relative_to(base)`: the component suffix when `base` is a
component prefix, `none` for the `ValueError` case. -/
def relative_to (p base : AbsPath) : Option AbsPath :=
  if segsPrefix base p then some (p.drop base.length) else none

/-- `part.startswith('.')` on one component. -/
def startsWithDot (s : Seg) : Bool :=
  match s.data with
  | [] => false
  | c :: _ => c = '.'

/-- UTF-8 bytes of one character (RFC 3629), the unit of Python's `utf-8`
codec: 1 to 4 bytes depending on the code point.  Bytes are naturals
below 256. -/
def utf8EncodeChar (c : Char) : List Nat :=
  if c.toNat < 0x80 then [c.toNat]
  else if c.toNat < 0x800 then
    [0xC0 + c.toNat / 0x40, 0x80 + c.toNat % 0x40]
  else if c.toNat < 0x10000 then
    [0xE0 + c.toNat / 0x1000, 0x80 + c.toNat / 0x40 % 0x40, 0x80 + c.toNat % 0x40]
  else
    [0xF0 + c.toNat / 0x40000, 0x80 + c.toNat / 0x1000 % 0x40,
      0x80 + c.toNat / 0x40 % 0x40, 0x80 + c.toNat % 0x40]

/-- Concatenated per-character encoding of a character list. -/
def encodeChars (f : Char → List Nat) : List Char → List Nat
  | [] => []
  | c :: cs => f c ++ encodeChars f cs

/-- `s.encode('utf-8')`. -/
def utf8Bytes (s : String) : List Nat := encodeChars utf8EncodeChar s.data

/-- A UTF-8 continuation byte (`0x80..0xBF`). -/
def isCont (b : Nat) : Bool := decide (0x80 ≤ b ∧ b < 0xC0)

/-- One step of strict UTF-8 decoding: consume the bytes of a single code
point, rejecting stray or missing continuation bytes, overlong forms,
surrogates and code points above U+10FFFF — the sequences Python's strict
`bytes.decode('utf-8')` raises `UnicodeDecodeError` on. -/
def utf8DecodeStep (b0 : Nat) (rest : List Nat) : Option (Nat × List Nat) :=
  if b0 < 0x80 then some (b0, rest)
  else if b0 < 0xC2 then none
  else if b0 < 0xE0 then
    match rest with
    | b1 :: rest1 =>
      if isCont b1 then some ((b0 - 0xC0) * 0x40 + (b1 - 0x80), rest1) else none
    | [] => none
  else if b0 < 0xF0 then
    match rest with
    | b1 :: b2 :: rest2 =>
      if isCont b1 && isCont b2 then
        let n := (b0 - 0xE0) * 0x1000 + (b1 - 0x80) * 0x40 + (b2 - 0x80)
        if n < 0x800 then none
        else if 0xD800 ≤ n ∧ n < 0xE000 then none
        else some (n, rest2)
      else none
    | _ => none
  else if b0 < 0xF5 then
    match rest with
    | b1 :: b2 :: b3 :: rest3 =>
      if isCont b1 && isCont b2 && isCont b3 then
        let n := (b0 - 0xF0) * 0x40000 + (b1 - 0x80) * 0x1000
          + (b2 - 0x80) * 0x40 + (b3 - 0x80)
        if n < 0x10000 then none
        else if 0x110000 ≤ n then none
        else some (n, rest3)
      else none
    | _ => none
  else none

/-- Fuel-driven strict UTF-8 decode loop (each step consumes at least one
byte, so a fuel of the byte count suffices). -/
def utf8DecodeGo : Nat → List Nat → Option (List Char)
  | _, [] => some []
  | 0, _ :: _ => none
  | fuel + 1, b0 :: rest =>
    match utf8DecodeStep b0 rest with
    | some (n, rest2) => (utf8DecodeGo fuel rest2).map (fun cs => Char.ofNat n :: cs)
    | none => none

/-- `bytes.decode('utf-8')` (strict): the character list, or `none` for a
`UnicodeDecodeError`. -/
def utf8Decode (bs : List Nat) : Option (List Char) :=
  utf8DecodeGo bs.length bs

/-- UTF-16-LE bytes of one character (the unit of Python's `utf-16`
codec): one 16-bit unit below U+10000, else a surrogate pair. -/
def utf16EncodeChar (c : Char) : List Nat :=
  if c.toNat < 0x10000 then [c.toNat % 0x100, c.toNat / 0x100]
  else
    [(0xD800 + (c.toNat - 0x10000) / 0x400) % 0x100,
      (0xD800 + (c.toNat - 0x10000) / 0x400) / 0x100,
      (0xDC00 + (c.toNat - 0x10000) % 0x400) % 0x100,
      (0xDC00 + (c.toNat - 0x10000) % 0x400) / 0x100]

/-- The codecs exercised by this verification, standing for the codec
object `str.encode(encoding)` dispatches to (requests carry the codec
rather than its name string).  `utf16` is Python's `'utf-16'`:
little-endian with a leading byte-order mark. -/
inductive PyEncoding
  | utf8
  | utf16
  | ascii
deriving DecidableEq

/-- `content.encode(encoding)`: the encoded bytes, or `none` for a
`UnicodeEncodeError` (`ascii` rejects non-ASCII content). -/
def encodeStr : PyEncoding → String → Option (List Nat)
  | .utf8, s => some (utf8Bytes s)
  | .utf16, s => some (0xFF :: 0xFE :: encodeChars utf16EncodeChar s.data)
  | .ascii, s =>
    if s.data.all (fun c => c.toNat < 0x80) then
      some (s.data.map (fun c => c.toNat))
    else none

/-- The `SecurityManager` state built in `SecurityManager.__init__`:
the resolved base directory, the resolved blocked paths, the lower-cased
allowed-extension set, the size limit, and the external SHA-256 hex-digest
function over byte sequences (`hashlib.sha256(...).hexdigest()`), carried
abstractly. -/
structure SecurityManager where
  base_dir : AbsPath
  blocked_paths : List AbsPath
  allowed_extensions : List String
  max_file_size : Nat
  digest : List Nat → String

/-- `SecurityManager.is_path_safe` (security.py lines 29–73): resolve the
path, require it inside `base_dir`, reject a `..` component in the given
(unresolved) path, reject blocked-path prefixes of the resolved path, and
reject a hidden (dot-initial) component of the path relative to the root. -/
def is_path_safe (sm : SecurityManager) (path : List Seg) : Bool :=
  let normalized := resolveParts path
  match relative_to normalized sm.base_dir with
  | none => false
  | some relative_path =>
    if path.contains ".." then false
    else if sm.blocked_paths.any (fun blocked => segsPrefix blocked normalized) then false
    else ! relative_path.any startsWithDot

/-- ASCII model of `str.strip()`'s whitespace set. -/
def isSpaceChar (c : Char) : Bool :=
  c = ' ' || c = '\t' || c = '\n' || c = '\r' || c = '\x0b' || c = '\x0c'

/-- `relative_path.strip()` (ASCII whitespace). -/
def pyTrim (cs : List Char) : List Char :=
  ((cs.dropWhile isSpaceChar).reverse.dropWhile isSpaceChar).reverse

/-- `.lstrip('/\\')`. -/
def lstripSeps (cs : List Char) : List Char :=
  cs.dropWhile (fun c => c = '/' || c = '\\')

/-- Split a character list on `'/'`. -/
def splitOnSlash (cs : List Char) : List (List Char) :=
  cs.foldr
    (fun c acc =>
      if c = '/' then [] :: acc
      else
        match acc with
        | [] => [[c]]
        | seg :: rest => (c :: seg) :: rest)
    [[]]

/-- The component list `pathlib` extracts from the cleaned candidate string
of `get_safe_path`: strip whitespace, strip leading separators, split on the
separator, drop empty and `.` components (as `PurePath` parsing does). -/
def parseRel (s : String) : List Seg :=
  ((splitOnSlash (lstripSeps (pyTrim s.data))).map String.mk).filter
    (fun seg => seg ≠ "" && seg ≠ ".")

/-- `SecurityManager.get_safe_path` (security.py lines 103–123): clean the
candidate, join it onto `base_dir`, and keep it only if `is_path_safe`. -/
def get_safe_path (sm : SecurityManager) (relative_path : String) : Option AbsPath :=
  let safe_path := sm.base_dir ++ parseRel relative_path
  if is_path_safe sm safe_path then some safe_path else none

/-- Modelled from the spec (§3 `PathVerdict`): a verdict is safe iff the
resolved path is a descendant of the sandbox root (read inclusively: the
root itself qualifies, which the code relies on to list the root), the given
path has no `..` component, the resolved path is not equal to or under a
blocked entry, and no component of the resolved path relative to the root
starts with a dot. -/
def PathVerdictSafe (sm : SecurityManager) (path : List Seg) : Prop :=
  sm.base_dir <+: resolveParts path
    ∧ ".." ∉ path
    ∧ (∀ blocked ∈ sm.blocked_paths, ¬ blocked <+: resolveParts path)
    ∧ ∀ part ∈ (resolveParts path).drop sm.base_dir.length, startsWithDot part = false

theorem segsPrefix_iff (l₁ l₂ : List Seg) : segsPrefix l₁ l₂ = true ↔ l₁ <+: l₂ := by
  induction l₁ generalizing l₂ with
  | nil => simp [segsPrefix]
  | cons a as ih =>
    cases l₂ with
    | nil => simp [segsPrefix]
    | cons b bs =>
      simp only [segsPrefix, Bool.and_eq_true, beq_iff_eq, ih, List.cons_prefix_cons]

/-- Boolean normal form of `is_path_safe`: the four checks of the body as
one conjunction. -/
theorem is_path_safe_eq (sm : SecurityManager) (path : List Seg) :
    is_path_safe sm path =
      (segsPrefix sm.base_dir (resolveParts path)
        && !path.contains ".."
        && !sm.blocked_paths.any (fun blocked => segsPrefix blocked (resolveParts path))
        && !((resolveParts path).drop sm.base_dir.length).any startsWithDot) := by
  unfold is_path_safe relative_to
  dsimp only
  by_cases hp : segsPrefix sm.base_dir (resolveParts path) = true
  · rw [if_pos hp, hp]
    dsimp only
    by_cases hdd : path.contains ".." = true
    · rw [if_pos hdd, hdd]
      simp
    · rw [if_neg hdd]
      rw [Bool.not_eq_true] at hdd
      rw [hdd]
      by_cases hbl : sm.blocked_paths.any
          (fun blocked => segsPrefix blocked (resolveParts path)) = true
      · rw [if_pos hbl, hbl]
        simp
      · rw [if_neg hbl]
        rw [Bool.not_eq_true] at hbl
        rw [hbl]
        simp
  · rw [if_neg hp]
    rw [Bool.not_eq_true] at hp
    rw [hp]
    simp

/-- C1: for every absolute path, `is_path_safe` returns true iff the
canonicalized path is a (non-strict) descendant of the sandbox root, the
given path contains no `..` segment, the canonicalized path is not equal to
or under any blocked-path entry, and no segment of the canonicalized path
relative to the root begins with a dot. -/
theorem is_path_safe_iff_verdict (sm : SecurityManager) (path : List Seg) :
    is_path_safe sm path = true ↔ PathVerdictSafe sm path := by
  rw [is_path_safe_eq]
  unfold PathVerdictSafe
  simp only [Bool.and_eq_true, Bool.not_eq_true', segsPrefix_iff, List.any_eq_false,
    Bool.not_eq_true]
  constructor
  · rintro ⟨⟨⟨h1, h2⟩, h3⟩, h4⟩
    refine ⟨h1, ?_, h3, h4⟩
    intro hmem
    have hc : path.contains ".." = true := List.elem_iff.mpr hmem
    rw [hc] at h2
    exact absurd h2 (by simp)
  · rintro ⟨h1, h2, h3, h4⟩
    refine ⟨⟨⟨h1, ?_⟩, h3⟩, h4⟩
    cases hc : path.contains ".." with
    | false => rfl
    | true => exact absurd (List.elem_iff.mp hc) h2

/-- A concrete manager used by witnesses and counterexamples: sandbox root
`/data`, no blocked paths, allow-list `["txt"]`, the default 10 MiB size
limit, and an arbitrary digest stand-in for the external SHA-256. -/
def demoSM : SecurityManager :=
  { base_dir := ["data"]
    blocked_paths := []
    allowed_extensions := ["txt"]
    max_file_size := 10485760
    digest := fun _ => "d" }

/-- C2 counterexample: a candidate beginning with an absolute prefix is not
rejected — `get_safe_path` strips the leading separators and resolves the
candidate relative to the sandbox root, here to `/data/secret.txt`. -/
theorem get_safe_path_absolute_prefix_accepted :
    get_safe_path demoSM "/secret.txt" ≠ none := by decide

/-- C2 (amended): every candidate whose cleaned component list contains a
`..` segment is rejected by `get_safe_path`. -/
theorem get_safe_path_dotdot_rejected (sm : SecurityManager) (candidate : String)
    (h : ".." ∈ parseRel candidate) :
    get_safe_path sm candidate = none := by
  unfold get_safe_path
  have hdd : (sm.base_dir ++ parseRel candidate).contains ".." = true :=
    List.elem_iff.mpr (List.mem_append_right _ h)
  have hs : is_path_safe sm (sm.base_dir ++ parseRel candidate) = false := by
    rw [is_path_safe_eq, hdd]
    simp
  rw [if_neg]
  rw [hs]
  simp

/-- C2 witness: with sandbox root `/data`, the candidate `../secret.txt`
is rejected as unsafe. -/
theorem get_safe_path_dotdot_rejected_witness :
    get_safe_path demoSM "../secret.txt" = none :=
  get_safe_path_dotdot_rejected demoSM "../secret.txt" (by decide)

/-- The fragment of the watcher state used by
`FileSystemEventHandler._should_process_event` (service.py lines 27–38). -/
structure EventHandler where
  base_dir : AbsPath

/-- `FileSystemEventHandler._should_process_event` (service.py lines 31–38):
resolve the event path; accept when it is relative to `base_dir` and no
component of the whole resolved absolute path starts with a dot. -/
def should_process_event (h : EventHandler) (src_path : List Seg) : Bool :=
  let path := resolveParts src_path
  match relative_to path h.base_dir with
  | none => false
  | some _ => ! path.any startsWithDot

/-- C10: the watcher filter accepts an event iff its resolved absolute path
lies under the sandbox root and no component of the entire absolute path
(including components of the root's own ancestors) begins with a dot;
consequently, when the sandbox root itself lies under a dot-directory,
every event is filtered out. -/
theorem should_process_event_characterization (h : EventHandler) (src_path : List Seg) :
    (should_process_event h src_path = true ↔
      h.base_dir <+: resolveParts src_path ∧
        ∀ part ∈ resolveParts src_path, startsWithDot part = false)
    ∧ ∀ part ∈ h.base_dir, startsWithDot part = true →
        should_process_event h src_path = false := by
  have heq : should_process_event h src_path =
      (segsPrefix h.base_dir (resolveParts src_path)
        && !(resolveParts src_path).any startsWithDot) := by
    unfold should_process_event relative_to
    dsimp only
    by_cases hp : segsPrefix h.base_dir (resolveParts src_path) = true
    · rw [if_pos hp, hp]
      dsimp only
      simp
    · rw [if_neg hp]
      rw [Bool.not_eq_true] at hp
      rw [hp]
      simp
  have main : should_process_event h src_path = true ↔
      h.base_dir <+: resolveParts src_path ∧
        ∀ part ∈ resolveParts src_path, startsWithDot part = false := by
    rw [heq]
    simp only [Bool.and_eq_true, Bool.not_eq_true', segsPrefix_iff, List.any_eq_false,
      Bool.not_eq_true]
  refine ⟨main, ?_⟩
  intro part hmem hdot
  cases hacc : should_process_event h src_path with
  | false => rfl
  | true =>
    obtain ⟨hpre, hall⟩ := main.mp hacc
    obtain ⟨t, ht⟩ := hpre
    have : part ∈ resolveParts src_path := ht ▸ List.mem_append_left t hmem
    rw [hall part this] at hdot
    exact absurd hdot (by simp)

/-- C10 witness: with the sandbox root under the dot-directory `.cache`,
a concrete event inside the root is filtered out. -/
theorem should_process_event_witness :
    should_process_event ⟨["home", ".cache", "data"]⟩
      ["home", ".cache", "data", "f.txt"] = false :=
  (should_process_event_characterization ⟨["home", ".cache", "data"]⟩
    ["home", ".cache", "data", "f.txt"]).2 ".cache" (by decide) (by decide)

/-- A filesystem entry: a regular file with its byte content, or a
directory. -/
inductive Entry
  | file (content : List Nat)
  | dir
deriving DecidableEq

/-- The filesystem model: an association list from absolute paths to
entries.  The filesystem root `[]` counts as an always-existing directory. -/
abbrev FS := List (AbsPath × Entry)

def FS.lookup (fs : FS) (p : AbsPath) : Option Entry :=
  (fs.find? (fun x => x.1 == p)).map (fun x => x.2)

/-- `Path.exists()`. -/
def FS.existsAt (fs : FS) (p : AbsPath) : Bool := (fs.lookup p).isSome

/-- `Path.is_file()`. -/
def FS.isFileAt (fs : FS) (p : AbsPath) : Bool :=
  match fs.lookup p with
  | some (.file _) => true
  | _ => false

/-- `Path.is_dir()` (the filesystem root is a directory). -/
def FS.isDirAt (fs : FS) (p : AbsPath) : Bool :=
  p.isEmpty || fs.lookup p == some .dir

def FS.set (fs : FS) (p : AbsPath) (e : Entry) : FS :=
  (p, e) :: fs.filter (fun x => !(x.1 == p))

/-- `Path.unlink()`. -/
def FS.unlink (fs : FS) (p : AbsPath) : FS :=
  fs.filter (fun x => !(x.1 == p))

/-- `shutil.rmtree`: removes the path and everything under it. -/
def FS.rmtree (fs : FS) (p : AbsPath) : FS :=
  fs.filter (fun x => !(segsPrefix p x.1))

/-- The OS error kinds the embedded operations distinguish. -/
inductive OsError
  | fileExists
  | fileNotFound
  | notADirectory
  | isADirectory
deriving DecidableEq

/-- Stand-in for Python's `str(e)` on an `OSError`. -/
def OsError.msg : OsError → String
  | .fileExists => "File exists"
  | .fileNotFound => "No such file or directory"
  | .notADirectory => "Not a directory"
  | .isADirectory => "Is a directory"

/-- `Path.mkdir(parents=..., exist_ok=...)` on the reversed component list
(so the recursion into the parent is structural): an existing directory
target is an error unless `exist_ok`; an existing file target is always
`FileExistsError`; a missing parent is created recursively when `parents`,
`FileNotFoundError` otherwise; a file where the parent should be is
`NotADirectoryError`. -/
def FS.mkdirRev (fs : FS) (rp : List Seg) (parents exist_ok : Bool) :
    Except OsError FS :=
  match rp with
  | [] => if exist_ok then .ok fs else .error .fileExists
  | seg :: rtail =>
    match fs.lookup (seg :: rtail).reverse with
    | some .dir => if exist_ok then .ok fs else .error .fileExists
    | some (.file _) => .error .fileExists
    | none =>
      if fs.isDirAt rtail.reverse then .ok (fs.set (seg :: rtail).reverse .dir)
      else if fs.isFileAt rtail.reverse then .error .notADirectory
      else if parents then
        match fs.mkdirRev rtail true true with
        | .ok fs2 => .ok (fs2.set (seg :: rtail).reverse .dir)
        | .error e => .error e
      else .error .fileNotFound

/-- `Path.mkdir(parents=..., exist_ok=...)`. -/
def FS.mkdir (fs : FS) (p : AbsPath) (parents exist_ok : Bool) :
    Except OsError FS :=
  fs.mkdirRev p.reverse parents exist_ok

/-- Opening a path for writing and writing the encoded bytes: fails on a
directory target or a missing/non-directory parent, else stores the
bytes. -/
def FS.writeFile (fs : FS) (p : AbsPath) (content : List Nat) :
    Except OsError FS :=
  match fs.lookup p with
  | some .dir => .error .isADirectory
  | some (.file _) => .ok (fs.set p (.file content))
  | none =>
    if fs.isDirAt p.dropLast then .ok (fs.set p (.file content))
    else if fs.isFileAt p.dropLast then .error .notADirectory
    else .error .fileNotFound

/-- Reading a file's raw bytes. -/
def FS.readFile (fs : FS) (p : AbsPath) : Option (List Nat) :=
  match fs.lookup p with
  | some (.file content) => some content
  | _ => none

/-- `PurePath.suffix` of the final path component: the substring from the
last dot, unless that dot is the first or the last character of the name. -/
def pySuffix (name : String) : String :=
  let cs := name.data
  if cs.contains '.' then
    let i := cs.length - 1 - cs.reverse.findIdx (fun c => c = '.')
    if 0 < i ∧ i < cs.length - 1 then String.mk (cs.drop i) else ""
  else ""

/-- `str.lower()` (ASCII case folding). -/
def lowerStr (s : String) : String := String.mk (s.data.map Char.toLower)

/-- `.lstrip('.')`. -/
def lstripDots (s : String) : String :=
  String.mk (s.data.dropWhile (fun c => c = '.'))

/-- `SecurityManager.validate_file_extension` (security.py 75–89): an empty
allow-list admits everything, otherwise the lower-cased dotless suffix must
be a member. -/
def validate_file_extension (sm : SecurityManager) (file_path : AbsPath) : Bool :=
  if sm.allowed_extensions.isEmpty then true
  else sm.allowed_extensions.contains
    (lstripDots (lowerStr (pySuffix (file_path.getLastD ""))))

/-- `SecurityManager.validate_file_size` (`0 <= size <= max`; sizes are
natural numbers in the model). -/
def validate_file_size (sm : SecurityManager) (file_size : Nat) : Bool :=
  file_size ≤ sm.max_file_size

/-- `SecurityManager.calculate_checksum` (security.py 125–135): the external
SHA-256 hex digest of the UTF-8 encoding of the content
(`hashlib.sha256(content.encode('utf-8')).hexdigest()`). -/
def calculate_checksum (sm : SecurityManager) (content : String) : String :=
  sm.digest (utf8Bytes content)

/-- `SecurityManager.can_read_file` (security.py 193–216); `os.access` is
modelled as granted. -/
def can_read_file (sm : SecurityManager) (fs : FS) (file_path : AbsPath) : Bool :=
  is_path_safe sm file_path && fs.existsAt file_path && fs.isFileAt file_path

/-- `SecurityManager.can_delete_file` (security.py 244–264); `os.access` is
modelled as granted.  An absent target yields `false` here, which
`delete_file` then reports as a permission failure. -/
def can_delete_file (sm : SecurityManager) (fs : FS) (file_path : AbsPath) : Bool :=
  is_path_safe sm file_path && fs.existsAt file_path

/-- `FileOperationResult` (models.py; timestamps not modelled). -/
structure FileOperationResult where
  path : String
  operation : String
  success : Bool
  size : Option Nat := none
  checksum : Option String := none
  message : Option String := none
deriving DecidableEq

/-- `str(path)` of a relative component list (`.` for the empty path,
as `str(Path('.'))`). -/
def joinPath : List Seg → String
  | [] => "."
  | [seg] => seg
  | seg :: rest => seg ++ "/" ++ joinPath rest

/-- `FileCreateRequest` (models.py): path, content, overwrite flag and the
caller-supplied encoding. -/
structure FileCreateRequest where
  path : String
  content : String
  overwrite : Bool
  encoding : PyEncoding

/-- `FileSystemService.create_file` (service.py 132–207), returning the new
filesystem state together with the outcome.  The size check is
`len(request.content.encode(request.encoding))` and the write stores the
bytes of that same encoding; a `UnicodeEncodeError` (line 162) falls into
the generic `except` branch. -/
def create_file (sm : SecurityManager) (fs : FS) (request : FileCreateRequest) :
    FS × FileOperationResult :=
  match get_safe_path sm request.path with
  | none =>
    (fs, { path := request.path, operation := "create", success := false,
           message := some "Небезопасный путь" })
  | some file_path =>
    if ! validate_file_extension sm file_path then
      (fs, { path := request.path, operation := "create", success := false,
             message := some ("Запрещенное расширение файла: "
               ++ pySuffix (file_path.getLastD "")) })
    else
      match encodeStr request.encoding request.content with
      | none =>
        (fs, { path := request.path, operation := "create", success := false,
               message := some "Ошибка создания файла: UnicodeEncodeError" })
      | some bytes =>
        if ! validate_file_size sm bytes.length then
          (fs, { path := request.path, operation := "create", success := false,
                 message := some ("Превышен максимальный размер файла: "
                   ++ toString sm.max_file_size ++ " байт") })
        else if fs.existsAt file_path && ! request.overwrite then
          (fs, { path := request.path, operation := "create", success := false,
                 message := some "Файл уже существует" })
        else
          match fs.mkdir file_path.dropLast true true with
          | .error e =>
            (fs, { path := request.path, operation := "create",
                   success := false,
                   message := some ("Ошибка создания файла: " ++ e.msg) })
          | .ok fs1 =>
            match fs1.writeFile file_path bytes with
            | .error e =>
              (fs1, { path := request.path, operation := "create",
                      success := false,
                      message := some ("Ошибка создания файла: " ++ e.msg) })
            | .ok fs2 =>
              (fs2, { path := joinPath (file_path.drop sm.base_dir.length),
                      operation := "create", success := true,
                      size := some bytes.length,
                      checksum := some (calculate_checksum sm request.content) })

/-- `FileContent` (models.py): the fields the claims inspect (MIME type and
encoding are not modelled; the encoding is UTF-8 throughout). -/
structure FileContent where
  path : String
  content : String
  size : Nat
  checksum : String
deriving DecidableEq

/-- The three kinds of exception `read_file` raises: `ValueError` for an
unsafe path, `PermissionError`, and `IOError` wrapping anything raised
inside the try block (including the post-read size `ValueError`). -/
inductive ReadError
  | unsafePath (msg : String)
  | permissionDenied (msg : String)
  | ioFailure (msg : String)
deriving DecidableEq

/-- `FileSystemService.read_file` (service.py 209–247).  The open at line
227 decodes with the hardcoded `'utf-8'` regardless of how the file was
written; a `UnicodeDecodeError` is caught by the generic handler and
re-raised as `IOError`. -/
def read_file (sm : SecurityManager) (fs : FS) (relative_path : String) :
    Except ReadError FileContent :=
  match get_safe_path sm relative_path with
  | none => .error (.unsafePath ("Небезопасный путь: " ++ relative_path))
  | some file_path =>
    if ! can_read_file sm fs file_path then
      .error (.permissionDenied ("Нет доступа к файлу: " ++ relative_path))
    else
      match fs.readFile file_path with
      | none => .error (.ioFailure ("Ошибка чтения файла " ++ relative_path))
      | some bytes =>
        match utf8Decode bytes with
        | none =>
          .error (.ioFailure ("Ошибка чтения файла " ++ relative_path
            ++ ": UnicodeDecodeError"))
        | some chars =>
          let content := String.mk chars
          let file_size := (utf8Bytes content).length
          if ! validate_file_size sm file_size then
            .error (.ioFailure ("Ошибка чтения файла " ++ relative_path
              ++ ": Превышен максимальный размер файла"))
          else
            .ok { path := joinPath (file_path.drop sm.base_dir.length),
                  content := content,
                  size := file_size,
                  checksum := calculate_checksum sm content }

/-- `FileUpdateRequest` (models.py): content, the caller-supplied encoding,
and the create-if-missing flag. -/
structure FileUpdateRequest where
  content : String
  encoding : PyEncoding
  create_if_missing : Bool

/-- `FileSystemService.update_file` (service.py 249–324): the size check
encodes with `request.encoding` (line 292, after the mkdir of line 289)
and the write stores those bytes; a `UnicodeEncodeError` falls into the
generic handler. -/
def update_file (sm : SecurityManager) (fs : FS) (relative_path : String)
    (request : FileUpdateRequest) : FS × FileOperationResult :=
  match get_safe_path sm relative_path with
  | none =>
    (fs, { path := relative_path, operation := "update", success := false,
           message := some "Небезопасный путь" })
  | some file_path =>
    if ! validate_file_extension sm file_path then
      (fs, { path := relative_path, operation := "update", success := false,
             message := some ("Запрещенное расширение файла: "
               ++ pySuffix (file_path.getLastD "")) })
    else if ! fs.existsAt file_path && ! request.create_if_missing then
      (fs, { path := relative_path, operation := "update", success := false,
             message := some "Файл не найден" })
    else
      match (if fs.existsAt file_path then Except.ok fs
             else fs.mkdir file_path.dropLast true true) with
      | .error e =>
        (fs, { path := relative_path, operation := "update", success := false,
               message := some ("Ошибка обновления файла: " ++ e.msg) })
      | .ok fs1 =>
        match encodeStr request.encoding request.content with
        | none =>
          (fs1, { path := relative_path, operation := "update",
                  success := false,
                  message := some "Ошибка обновления файла: UnicodeEncodeError" })
        | some bytes =>
          if ! validate_file_size sm bytes.length then
            (fs1, { path := relative_path, operation := "update",
                    success := false,
                    message := some ("Превышен максимальный размер файла: "
                      ++ toString sm.max_file_size ++ " байт") })
          else
            match fs1.writeFile file_path bytes with
            | .error e =>
              (fs1, { path := relative_path, operation := "update",
                      success := false,
                      message := some ("Ошибка обновления файла: " ++ e.msg) })
            | .ok fs2 =>
              (fs2, { path := joinPath (file_path.drop sm.base_dir.length),
                      operation := "update", success := true,
                      size := some bytes.length,
                      checksum := some (calculate_checksum sm request.content) })

/-- `FileSystemService.delete_file` (service.py 326–378). -/
def delete_file (sm : SecurityManager) (fs : FS) (relative_path : String) :
    FS × FileOperationResult :=
  match get_safe_path sm relative_path with
  | none =>
    (fs, { path := relative_path, operation := "delete", success := false,
           message := some "Небезопасный путь" })
  | some file_path =>
    if ! can_delete_file sm fs file_path then
      (fs, { path := relative_path, operation := "delete", success := false,
             message := some "Нет прав на удаление файла" })
    else if fs.isFileAt file_path then
      (fs.unlink file_path,
       { path := joinPath (file_path.drop sm.base_dir.length),
         operation := "delete", success := true })
    else if fs.isDirAt file_path then
      (fs.rmtree file_path,
       { path := joinPath (file_path.drop sm.base_dir.length),
         operation := "delete", success := true })
    else
      (fs, { path := relative_path, operation := "delete", success := false,
             message := some "Файл или директория не найдены" })

/-- `DirectoryCreateRequest` (models.py). -/
structure DirectoryCreateRequest where
  path : String
  recursive : Bool

/-- The catch-all failure message of `create_directory`
(`"Ошибка создания директории: {str(e)}"`), shared by every exception other
than `FileExistsError`. -/
def genericDirCreateMsg (e : OsError) : String :=
  "Ошибка создания директории: " ++ e.msg

/-- `FileSystemService.create_directory` (service.py 444–488):
`mkdir(parents=recursive, exist_ok=False)`; `FileExistsError` gets the
dedicated already-exists message, every other exception (including the
`FileNotFoundError` of a missing ancestor) the generic one. -/
def create_directory (sm : SecurityManager) (fs : FS)
    (request : DirectoryCreateRequest) : FS × FileOperationResult :=
  match get_safe_path sm request.path with
  | none =>
    (fs, { path := request.path, operation := "create_directory",
           success := false, message := some "Небезопасный путь" })
  | some dir_path =>
    match fs.mkdir dir_path request.recursive false with
    | .ok fs2 =>
      (fs2, { path := joinPath (dir_path.drop sm.base_dir.length),
              operation := "create_directory", success := true })
    | .error .fileExists =>
      (fs, { path := request.path, operation := "create_directory",
             success := false, message := some "Директория уже существует" })
    | .error e =>
      (fs, { path := request.path, operation := "create_directory",
             success := false, message := some (genericDirCreateMsg e) })

/-- `FileInfo` (models.py): the fields the claims inspect (timestamps,
read-only flag and MIME type are not modelled). -/
structure FileInfo where
  name : String
  path : String
  size : Nat
  is_directory : Bool
  checksum : Option String
deriving DecidableEq

/-- `Path.iterdir()`: the immediate children of a directory, in
association-list order. -/
def FS.children (fs : FS) (p : AbsPath) : List (AbsPath × Entry) :=
  fs.filter (fun x => x.1.dropLast == p && x.1.length == p.length + 1)

/-- The `FileInfo` record `list_directory` computes per surviving entry
(service.py 408–423): `st_size` is the on-disk byte count, the checksum is
the external digest of the file's raw bytes (`calculate_file_checksum`
streams the same SHA-256 over them). -/
def mkFileInfo (sm : SecurityManager) (item : AbsPath × Entry) : FileInfo :=
  match item.2 with
  | .dir =>
    { name := item.1.getLastD ""
      path := joinPath (item.1.drop sm.base_dir.length)
      size := 0, is_directory := true, checksum := none }
  | .file bytes =>
    { name := item.1.getLastD ""
      path := joinPath (item.1.drop sm.base_dir.length)
      size := bytes.length, is_directory := false
      checksum := some (sm.digest bytes) }

/-- `FileListResponse` (models.py). -/
structure FileListResponse where
  path : String
  files : List FileInfo
  directories : List FileInfo
  total_count : Nat
deriving DecidableEq

/-- The exceptions `list_directory` raises (`ValueError` unsafe,
`FileNotFoundError`, `ValueError` not-a-directory; the `IOError` wrap of
the enumeration loop cannot occur in the model). -/
inductive ListError
  | unsafePath
  | dirNotFound
  | notADirectory
deriving DecidableEq

/-- The case-insensitive ordering of `sort(key=lambda x: x.name.lower())`. -/
def nameLe (a b : FileInfo) : Prop := lowerStr a.name ≤ lowerStr b.name

instance : DecidableRel nameLe := fun a b => by
  unfold nameLe
  infer_instance

/-- `FileSystemService.list_directory` (service.py 380–442).  Python's
stable in-place sort is modelled by insertion sort over the same key. -/
def list_directory (sm : SecurityManager) (fs : FS) (relative_path : String) :
    Except ListError FileListResponse :=
  match get_safe_path sm (if relative_path = "" then "." else relative_path) with
  | none => .error .unsafePath
  | some dir_path =>
    if ! fs.existsAt dir_path then .error .dirNotFound
    else if ! fs.isDirAt dir_path then .error .notADirectory
    else
      let visible := (fs.children dir_path).filter
        (fun item => ! startsWithDot (item.1.getLastD ""))
      let infos := visible.map (mkFileInfo sm)
      let files := List.insertionSort nameLe (infos.filter (fun i => ! i.is_directory))
      let directories := List.insertionSort nameLe (infos.filter (fun i => i.is_directory))
      .ok { path := joinPath (dir_path.drop sm.base_dir.length)
            files := files, directories := directories
            total_count := files.length + directories.length }

/-- One parsed batch operation (api.py 333–350): the type tag with its
parsed payload and the top-level path field; `unknownOp` covers any other
type tag, which raises `ValueError`. -/
inductive BatchOp
  | createOp (path : String) (data : FileCreateRequest)
  | updateOp (path : String) (data : FileUpdateRequest)
  | deleteOp (path : String)
  | mkdirOp (path : String) (data : DirectoryCreateRequest)
  | unknownOp (path : String) (ty : String)

/-- `operation.get("path", "")`. -/
def BatchOp.opPath : BatchOp → String
  | .createOp p _ => p
  | .updateOp p _ => p
  | .deleteOp p => p
  | .mkdirOp p _ => p
  | .unknownOp p _ => p

/-- `operation.get("type")`. -/
def BatchOp.opType : BatchOp → String
  | .createOp _ _ => "create_file"
  | .updateOp _ _ => "update_file"
  | .deleteOp _ => "delete"
  | .mkdirOp _ _ => "create_directory"
  | .unknownOp _ ty => ty

/-- Dispatch of one batch operation: the service call's result, or the
message of the `ValueError` an unknown type raises. -/
def runBatchOp (sm : SecurityManager) (fs : FS) :
    BatchOp → Except String (FS × FileOperationResult)
  | .createOp _ data => .ok (create_file sm fs data)
  | .updateOp p data => .ok (update_file sm fs p data)
  | .deleteOp p => .ok (delete_file sm fs p)
  | .mkdirOp _ data => .ok (create_directory sm fs data)
  | .unknownOp _ ty => .error ("Неизвестный тип операции: " ++ ty)

/-- One element of the batch response `results` list. -/
structure BatchResultEntry where
  path : String
  ty : String
  success : Bool
  message : Option String
deriving DecidableEq

/-- One element of the batch response `errors` list. -/
structure BatchErrorEntry where
  path : String
  ty : String
  error : Option String
deriving DecidableEq

/-- `BatchOperationRequest` (models.py). -/
structure BatchOperationRequest where
  operations : List BatchOp
  continue_on_error : Bool

/-- `BatchOperationResponse` (models.py). -/
structure BatchOperationResponse where
  total_operations : Nat
  successful_operations : Nat
  failed_operations : Nat
  results : List BatchResultEntry
  errors : List BatchErrorEntry
deriving DecidableEq

/-- The loop of `batch_operations` (api.py 329–384): the final filesystem,
the `results` list, the `errors` list and the success count, stopping after
the first failure when `continue_on_error` is false. -/
def batchLoop (sm : SecurityManager) (coe : Bool) :
    FS → List BatchOp → FS × List BatchResultEntry × List BatchErrorEntry × Nat
  | fs, [] => (fs, [], [], 0)
  | fs, op :: rest =>
    match runBatchOp sm fs op with
    | .ok (fs1, result) =>
      let entry : BatchResultEntry :=
        { path := op.opPath, ty := op.opType, success := result.success
          message := result.message }
      if result.success then
        let r := batchLoop sm coe fs1 rest
        (r.1, entry :: r.2.1, r.2.2.1, r.2.2.2 + 1)
      else
        let err : BatchErrorEntry :=
          { path := op.opPath, ty := op.opType, error := result.message }
        if coe then
          let r := batchLoop sm coe fs1 rest
          (r.1, entry :: r.2.1, err :: r.2.2.1, r.2.2.2)
        else (fs1, [entry], [err], 0)
    | .error msg =>
      let entry : BatchResultEntry :=
        { path := op.opPath, ty := op.opType, success := false
          message := some msg }
      let err : BatchErrorEntry :=
        { path := op.opPath, ty := op.opType, error := some msg }
      if coe then
        let r := batchLoop sm coe fs rest
        (r.1, entry :: r.2.1, err :: r.2.2.1, r.2.2.2)
      else (fs, [entry], [err], 0)

/-- `batch_operations` (api.py 312–392).  `failed_operations` is computed
as `len(request.operations) - successful` (here in `Nat`; the success count
never exceeds the total, so this matches Python's integer subtraction). -/
def batch_operations (sm : SecurityManager) (fs : FS)
    (request : BatchOperationRequest) : BatchOperationResponse :=
  let r := batchLoop sm request.continue_on_error fs request.operations
  { total_operations := request.operations.length
    successful_operations := r.2.2.2
    failed_operations := request.operations.length - r.2.2.2
    results := r.2.1
    errors := r.2.2.1 }

/-- The demo filesystem: just the sandbox root directory `/data`. -/
def demoFS : FS := [(["data"], Entry.dir)]

theorem lookup_set_self (fs : FS) (p : AbsPath) (e : Entry) :
    (fs.set p e).lookup p = some e := by
  simp [FS.set, FS.lookup, List.find?_cons]

theorem find?_key_cons (y : AbsPath × Entry) (t : List (AbsPath × Entry))
    (q : AbsPath) :
    (y :: t).find? (fun x => x.1 == q)
      = if y.1 = q then some y else t.find? (fun x => x.1 == q) := by
  by_cases hy : y.1 = q
  · rw [if_pos hy]
    apply List.find?_cons_of_pos
    simp [hy]
  · rw [if_neg hy]
    apply List.find?_cons_of_neg
    simp [hy]

theorem find?_filter_ne (fs : FS) (p q : AbsPath) (h : q ≠ p) :
    (fs.filter (fun x => !(x.1 == p))).find? (fun x => x.1 == q)
      = fs.find? (fun x => x.1 == q) := by
  induction fs with
  | nil => rfl
  | cons y t ih =>
    rw [List.filter_cons]
    by_cases hy : y.1 = p
    · rw [if_neg (by simp [hy])]
      rw [find?_key_cons]
      rw [if_neg (show ¬ (y.1 = q) from fun hc => h (hc ▸ hy))]
      exact ih
    · rw [if_pos (by simp [hy])]
      rw [find?_key_cons, find?_key_cons]
      by_cases hq : y.1 = q
      · rw [if_pos hq, if_pos hq]
      · rw [if_neg hq, if_neg hq]
        exact ih

theorem lookup_set_ne (fs : FS) (p q : AbsPath) (e : Entry) (h : q ≠ p) :
    (fs.set p e).lookup q = fs.lookup q := by
  unfold FS.set FS.lookup
  rw [find?_key_cons]
  rw [if_neg (show ¬ (((p, e).1 : AbsPath) = q) from fun hc => h hc.symm)]
  rw [find?_filter_ne fs p q h]

theorem existsAt_set_self (fs : FS) (p : AbsPath) (e : Entry) :
    (fs.set p e).existsAt p = true := by
  unfold FS.existsAt
  rw [lookup_set_self]
  rfl

theorem isFileAt_set_file (fs : FS) (p : AbsPath) (c : List Nat) :
    (fs.set p (.file c)).isFileAt p = true := by
  unfold FS.isFileAt
  rw [lookup_set_self]

theorem readFile_set_file (fs : FS) (p : AbsPath) (c : List Nat) :
    (fs.set p (.file c)).readFile p = some c := by
  unfold FS.readFile
  rw [lookup_set_self]

theorem dropLast_isPrefix (l : AbsPath) : l.dropLast <+: l := by
  induction l with
  | nil => exact ⟨[], rfl⟩
  | cons a t ih =>
    cases t with
    | nil => exact ⟨[a], rfl⟩
    | cons b t2 =>
      obtain ⟨s, hs⟩ := ih
      refine ⟨s, ?_⟩
      show a :: ((b :: t2).dropLast ++ s) = a :: b :: t2
      rw [hs]

theorem get_safe_path_some (sm : SecurityManager) (s : String) (p : AbsPath)
    (h : get_safe_path sm s = some p) :
    p = sm.base_dir ++ parseRel s ∧ is_path_safe sm p = true := by
  unfold get_safe_path at h
  by_cases hs : is_path_safe sm (sm.base_dir ++ parseRel s) = true
  · rw [if_pos hs] at h
    injection h with h1
    subst h1
    exact ⟨rfl, hs⟩
  · rw [if_neg hs] at h
    exact absurd h (by simp)

theorem writeFile_ok_eq (fs : FS) (p : AbsPath) (c : List Nat) (fs' : FS)
    (h : fs.writeFile p c = .ok fs') : fs' = fs.set p (.file c) := by
  unfold FS.writeFile at h
  cases hl : fs.lookup p with
  | none =>
    rw [hl] at h
    dsimp only at h
    by_cases hd : fs.isDirAt p.dropLast = true
    · rw [if_pos hd] at h
      injection h with h1
      exact h1.symm
    · rw [if_neg hd] at h
      by_cases hf : fs.isFileAt p.dropLast = true
      · rw [if_pos hf] at h
        exact Except.noConfusion h
      · rw [if_neg hf] at h
        exact Except.noConfusion h
  | some e =>
    rw [hl] at h
    cases e with
    | dir => exact Except.noConfusion h
    | file old =>
      injection h with h1
      exact h1.symm

theorem mkdirRev_ok (fs : FS) (rp : List Seg)
    (hfiles : ∀ q : AbsPath, q <+: rp.reverse → fs.isFileAt q = false) :
    ∃ fs', fs.mkdirRev rp true true = .ok fs'
      ∧ fs'.isDirAt rp.reverse = true
      ∧ ∀ q : AbsPath, rp.length < q.length → fs'.lookup q = fs.lookup q := by
  induction rp generalizing fs with
  | nil => exact ⟨fs, rfl, rfl, fun q hq => rfl⟩
  | cons seg rtail ih =>
    unfold FS.mkdirRev
    cases hl : fs.lookup (seg :: rtail).reverse with
    | some e =>
      cases e with
      | dir =>
        refine ⟨fs, rfl, ?_, fun q hq => rfl⟩
        unfold FS.isDirAt
        rw [hl]
        simp
      | file c =>
        exfalso
        have hff := hfiles (seg :: rtail).reverse ⟨[], List.append_nil _⟩
        unfold FS.isFileAt at hff
        rw [hl] at hff
        simp at hff
    | none =>
      dsimp only
      by_cases hd : fs.isDirAt rtail.reverse = true
      · rw [if_pos hd]
        refine ⟨fs.set (seg :: rtail).reverse .dir, rfl, ?_, ?_⟩
        · unfold FS.isDirAt
          rw [lookup_set_self]
          simp
        · intro q hq
          apply lookup_set_ne
          intro he
          rw [he, List.length_reverse] at hq
          exact Nat.lt_irrefl _ hq
      · by_cases hf : fs.isFileAt rtail.reverse = true
        · exfalso
          have hff := hfiles rtail.reverse ⟨[seg], by simp [List.reverse_cons]⟩
          rw [hff] at hf
          exact absurd hf (by simp)
        · rw [if_neg hd, if_neg hf, if_pos rfl]
          have hfiles2 : ∀ q : AbsPath, q <+: rtail.reverse →
              fs.isFileAt q = false := by
            intro q hq
            exact hfiles q (hq.trans ⟨[seg], by simp [List.reverse_cons]⟩)
          obtain ⟨fs2, hmk, hdir2, hpres2⟩ := ih fs hfiles2
          rw [hmk]
          refine ⟨fs2.set (seg :: rtail).reverse .dir, rfl, ?_, ?_⟩
          · unfold FS.isDirAt
            rw [lookup_set_self]
            simp
          · intro q hq
            rw [List.length_cons] at hq
            rw [lookup_set_ne]
            · apply hpres2
              omega
            · intro he
              rw [he, List.length_reverse, List.length_cons] at hq
              omega

/-- C3 (failing input): deleting the absent `nonexistent.txt` yields the
permission-denial message produced by the `can_delete_file` check, not a
not-found classification — the dedicated not-found branch of `delete_file`
is unreachable for absent paths, although the repository's own test
`test_delete_nonexistent_file` expects "не найден" in the reported detail. -/
theorem delete_absent_reports_permission_failure :
    (delete_file demoSM demoFS "nonexistent.txt").2
      = { path := "nonexistent.txt", operation := "delete", success := false,
          message := some "Нет прав на удаление файла" } := by
  rfl

theorem utf8DecodeStep_encodeChar (c : Char) (rest : List Nat) :
    ∃ b0 bs, utf8EncodeChar c = b0 :: bs
      ∧ utf8DecodeStep b0 (bs ++ rest) = some (c.toNat, rest) := by
  have hv : c.toNat < 0xd800 ∨ (0xdfff < c.toNat ∧ c.toNat < 0x110000) := c.valid
  by_cases h1 : c.toNat < 0x80
  · refine ⟨c.toNat, [], ?_, ?_⟩
    · unfold utf8EncodeChar
      rw [if_pos h1]
    · show utf8DecodeStep c.toNat rest = some (c.toNat, rest)
      unfold utf8DecodeStep
      rw [if_pos h1]
  · by_cases h2 : c.toNat < 0x800
    · refine ⟨0xC0 + c.toNat / 0x40, [0x80 + c.toNat % 0x40], ?_, ?_⟩
      · unfold utf8EncodeChar
        rw [if_neg h1, if_pos h2]
      · show utf8DecodeStep (0xC0 + c.toNat / 0x40) ((0x80 + c.toNat % 0x40) :: rest)
            = some (c.toNat, rest)
        unfold utf8DecodeStep
        have hA : ¬ (0xC0 + c.toNat / 0x40 < 0x80) := by omega
        have hB : ¬ (0xC0 + c.toNat / 0x40 < 0xC2) := by omega
        have hC : 0xC0 + c.toNat / 0x40 < 0xE0 := by omega
        rw [if_neg hA, if_neg hB, if_pos hC]
        dsimp only
        have hcont : isCont (0x80 + c.toNat % 0x40) = true := by
          unfold isCont
          rw [decide_eq_true_eq]
          omega
        rw [if_pos hcont]
        have harith : (0xC0 + c.toNat / 0x40 - 0xC0) * 0x40
            + (0x80 + c.toNat % 0x40 - 0x80) = c.toNat := by omega
        rw [harith]
    · by_cases h3 : c.toNat < 0x10000
      · refine ⟨0xE0 + c.toNat / 0x1000,
          [0x80 + c.toNat / 0x40 % 0x40, 0x80 + c.toNat % 0x40], ?_, ?_⟩
        · unfold utf8EncodeChar
          rw [if_neg h1, if_neg h2, if_pos h3]
        · show utf8DecodeStep (0xE0 + c.toNat / 0x1000)
              ((0x80 + c.toNat / 0x40 % 0x40) :: (0x80 + c.toNat % 0x40) :: rest)
              = some (c.toNat, rest)
          unfold utf8DecodeStep
          have hA : ¬ (0xE0 + c.toNat / 0x1000 < 0x80) := by omega
          have hB : ¬ (0xE0 + c.toNat / 0x1000 < 0xC2) := by omega
          have hC : ¬ (0xE0 + c.toNat / 0x1000 < 0xE0) := by omega
          have hD : 0xE0 + c.toNat / 0x1000 < 0xF0 := by omega
          rw [if_neg hA, if_neg hB, if_neg hC, if_pos hD]
          dsimp only
          have hcont : (isCont (0x80 + c.toNat / 0x40 % 0x40)
              && isCont (0x80 + c.toNat % 0x40)) = true := by
            unfold isCont
            rw [Bool.and_eq_true, decide_eq_true_eq, decide_eq_true_eq]
            constructor <;> omega
          rw [if_pos hcont]
          have harith : (0xE0 + c.toNat / 0x1000 - 0xE0) * 0x1000
              + (0x80 + c.toNat / 0x40 % 0x40 - 0x80) * 0x40
              + (0x80 + c.toNat % 0x40 - 0x80) = c.toNat := by omega
          rw [harith]
          have hsur : ¬ (0xD800 ≤ c.toNat ∧ c.toNat < 0xE000) := by
            cases hv with
            | inl h => omega
            | inr h => omega
          rw [if_neg h2, if_neg hsur]
      · refine ⟨0xF0 + c.toNat / 0x40000,
          [0x80 + c.toNat / 0x1000 % 0x40, 0x80 + c.toNat / 0x40 % 0x40,
            0x80 + c.toNat % 0x40], ?_, ?_⟩
        · unfold utf8EncodeChar
          rw [if_neg h1, if_neg h2, if_neg h3]
        · show utf8DecodeStep (0xF0 + c.toNat / 0x40000)
              ((0x80 + c.toNat / 0x1000 % 0x40) :: (0x80 + c.toNat / 0x40 % 0x40)
                :: (0x80 + c.toNat % 0x40) :: rest)
              = some (c.toNat, rest)
          unfold utf8DecodeStep
          have hub : c.toNat < 0x110000 := by
            cases hv with
            | inl h => omega
            | inr h => omega
          have hA : ¬ (0xF0 + c.toNat / 0x40000 < 0x80) := by omega
          have hB : ¬ (0xF0 + c.toNat / 0x40000 < 0xC2) := by omega
          have hC : ¬ (0xF0 + c.toNat / 0x40000 < 0xE0) := by omega
          have hD : ¬ (0xF0 + c.toNat / 0x40000 < 0xF0) := by omega
          have hE : 0xF0 + c.toNat / 0x40000 < 0xF5 := by omega
          rw [if_neg hA, if_neg hB, if_neg hC, if_neg hD, if_pos hE]
          dsimp only
          have hcont : (isCont (0x80 + c.toNat / 0x1000 % 0x40)
              && isCont (0x80 + c.toNat / 0x40 % 0x40)
              && isCont (0x80 + c.toNat % 0x40)) = true := by
            unfold isCont
            rw [Bool.and_eq_true, Bool.and_eq_true, decide_eq_true_eq,
              decide_eq_true_eq, decide_eq_true_eq]
            refine ⟨⟨?_, ?_⟩, ?_⟩ <;> omega
          rw [if_pos hcont]
          have harith : (0xF0 + c.toNat / 0x40000 - 0xF0) * 0x40000
              + (0x80 + c.toNat / 0x1000 % 0x40 - 0x80) * 0x1000
              + (0x80 + c.toNat / 0x40 % 0x40 - 0x80) * 0x40
              + (0x80 + c.toNat % 0x40 - 0x80) = c.toNat := by omega
          rw [harith]
          have hF : ¬ (0x110000 ≤ c.toNat) := by omega
          rw [if_neg h3, if_neg hF]

theorem utf8DecodeGo_encode (cs : List Char) :
    ∀ fuel, (encodeChars utf8EncodeChar cs).length ≤ fuel →
      utf8DecodeGo fuel (encodeChars utf8EncodeChar cs) = some cs := by
  induction cs with
  | nil =>
    intro fuel hf
    cases fuel <;> rfl
  | cons c tail ih =>
    intro fuel hf
    obtain ⟨b0, bs, henc, hstep⟩ :=
      utf8DecodeStep_encodeChar c (encodeChars utf8EncodeChar tail)
    rw [show encodeChars utf8EncodeChar (c :: tail)
        = utf8EncodeChar c ++ encodeChars utf8EncodeChar tail from rfl] at hf ⊢
    rw [henc] at hf ⊢
    rw [List.cons_append] at hf ⊢
    cases fuel with
    | zero =>
      rw [List.length_cons] at hf
      omega
    | succ f =>
      unfold utf8DecodeGo
      rw [hstep]
      dsimp only
      rw [ih f (by rw [List.length_cons, List.length_append] at hf; omega)]
      dsimp only [Option.map]
      rw [Char.ofNat_toNat]

/-- Strict UTF-8 decoding inverts UTF-8 encoding. -/
theorem utf8Decode_utf8Bytes (s : String) :
    utf8Decode (utf8Bytes s) = some s.data := by
  unfold utf8Decode utf8Bytes
  exact utf8DecodeGo_encode s.data _ (Nat.le_refl _)

/-- C5 counterexample: creating `note.txt` with encoding `utf-16` succeeds
(the path is safe, `txt` is allowed, the size fits), but the subsequent
read of the same path returns no content — the stored bytes begin with the
UTF-16 byte-order mark `FF FE`, which the hardcoded UTF-8 decode of
`read_file` (service.py line 227) rejects, surfacing as an `IOError` — so
the unqualified round-trip claim fails. -/
theorem create_utf16_read_fails :
    (create_file demoSM demoFS
        ⟨"note.txt", "hi", false, PyEncoding.utf16⟩).2.success = true
    ∧ read_file demoSM
        (create_file demoSM demoFS
          ⟨"note.txt", "hi", false, PyEncoding.utf16⟩).1 "note.txt"
      = .error (.ioFailure
          "Ошибка чтения файла note.txt: UnicodeDecodeError") :=
  ⟨rfl, rfl⟩

/-- C5 (amended): for a request whose encoding is UTF-8, a successful
create followed by a read of the same relative path returns exactly the
original content together with a checksum equal to `calculate_checksum`
of that content; with any other encoding the round trip can fail, because
`read_file` always decodes UTF-8. -/
theorem create_then_read (sm : SecurityManager) (fs : FS)
    (request : FileCreateRequest)
    (henc : request.encoding = PyEncoding.utf8)
    (h : (create_file sm fs request).2.success = true) :
    ∃ fc : FileContent,
      read_file sm (create_file sm fs request).1 request.path = .ok fc
        ∧ fc.content = request.content
        ∧ fc.checksum = calculate_checksum sm request.content := by
  unfold create_file at h ⊢
  rw [henc] at h ⊢
  cases hg : get_safe_path sm request.path with
  | none =>
    rw [hg] at h
    simp at h
  | some file_path =>
    rw [hg] at h
    dsimp only at h ⊢
    by_cases hext : (! validate_file_extension sm file_path) = true
    · rw [if_pos hext] at h
      simp at h
    · rw [if_neg hext] at h ⊢
      rw [show encodeStr PyEncoding.utf8 request.content
          = some (utf8Bytes request.content) from rfl] at h ⊢
      dsimp only at h ⊢
      by_cases hsize : (! validate_file_size sm (utf8Bytes request.content).length)
          = true
      · rw [if_pos hsize] at h
        simp at h
      · rw [if_neg hsize] at h ⊢
        by_cases hex : (fs.existsAt file_path && ! request.overwrite) = true
        · rw [if_pos hex] at h
          simp at h
        · rw [if_neg hex] at h ⊢
          cases hmk : fs.mkdir file_path.dropLast true true with
          | error e =>
            rw [hmk] at h
            exact Bool.noConfusion h
          | ok fs1 =>
            rw [hmk] at h
            dsimp only at h ⊢
            cases hw : fs1.writeFile file_path (utf8Bytes request.content) with
            | error e =>
              rw [hw] at h
              exact Bool.noConfusion h
            | ok fs2 =>
              dsimp only at h ⊢
              clear h
              have hfs2 : fs2 = fs1.set file_path (.file (utf8Bytes request.content)) :=
                writeFile_ok_eq fs1 file_path (utf8Bytes request.content) fs2 hw
              obtain ⟨hfp, hsafe⟩ := get_safe_path_some sm request.path file_path hg
              unfold read_file
              rw [hg]
              dsimp only
              have hread : can_read_file sm fs2 file_path = true := by
                unfold can_read_file
                rw [hsafe, hfs2, existsAt_set_self, isFileAt_set_file]
                rfl
              rw [if_neg (by rw [hread]; simp)]
              rw [hfs2, readFile_set_file]
              dsimp only
              rw [utf8Decode_utf8Bytes]
              dsimp only
              have hmkstr : String.mk request.content.data = request.content := rfl
              rw [hmkstr]
              rw [if_neg hsize]
              exact ⟨_, rfl, rfl, rfl⟩

/-- C5 witness: the spec scenario — create `notes/todo.txt` with content
`"buy milk"` in UTF-8 under allow-list `["txt"]`, then read it back. -/
theorem create_then_read_witness :
    ∃ fc : FileContent,
      read_file demoSM
          (create_file demoSM demoFS
            ⟨"notes/todo.txt", "buy milk", false, PyEncoding.utf8⟩).1
          "notes/todo.txt" = .ok fc
        ∧ fc.content = "buy milk"
        ∧ fc.checksum = calculate_checksum demoSM "buy milk" :=
  create_then_read demoSM demoFS
    ⟨"notes/todo.txt", "buy milk", false, PyEncoding.utf8⟩ rfl (by decide)

/-- A filesystem where `notes.txt` already exists as a directory. -/
def demoFS4 : FS := [(["data"], Entry.dir), (["data", "notes.txt"], Entry.dir)]

/-- C4 counterexample: a create aimed at `notes.txt` — safe path, allowed
extension, encodable content of small size, overwrite set, so none of the
documented deny conditions holds — still fails, because the target exists
as a directory and `open(..., 'w')` raises `IsADirectoryError`. -/
theorem create_file_dir_target_fails :
    get_safe_path demoSM "notes.txt" = some ["data", "notes.txt"]
      ∧ validate_file_extension demoSM ["data", "notes.txt"] = true
      ∧ encodeStr PyEncoding.utf8 "hello" = some (utf8Bytes "hello")
      ∧ validate_file_size demoSM (utf8Bytes "hello").length = true
      ∧ demoFS4.existsAt ["data", "notes.txt"] = true
      ∧ (⟨"notes.txt", "hello", true, PyEncoding.utf8⟩
          : FileCreateRequest).overwrite = true
      ∧ (create_file demoSM demoFS4
          ⟨"notes.txt", "hello", true, PyEncoding.utf8⟩).2.success
          = false := by
  decide

/-- C4 (amended): `create_file` denies and leaves the filesystem untouched
when the path is unsafe, when the extension is not in the non-empty
allow-list, when the content cannot be encoded in the request's encoding,
when the size of the encoded bytes exceeds the limit, or when the target
exists and overwrite is false; otherwise — provided the target is not an
existing directory and nothing in the parent chain is an existing regular
file — it creates the missing parent directories and writes the encoded
bytes. -/
theorem create_file_behavior (sm : SecurityManager) (fs : FS)
    (request : FileCreateRequest) :
    (get_safe_path sm request.path = none →
      (create_file sm fs request).2.success = false
        ∧ (create_file sm fs request).1 = fs)
    ∧ (∀ file_path, get_safe_path sm request.path = some file_path →
        validate_file_extension sm file_path = false →
        (create_file sm fs request).2.success = false
          ∧ (create_file sm fs request).1 = fs)
    ∧ (encodeStr request.encoding request.content = none →
        (create_file sm fs request).2.success = false
          ∧ (create_file sm fs request).1 = fs)
    ∧ (∀ bytes, encodeStr request.encoding request.content = some bytes →
        validate_file_size sm bytes.length = false →
        (create_file sm fs request).2.success = false
          ∧ (create_file sm fs request).1 = fs)
    ∧ (∀ file_path, get_safe_path sm request.path = some file_path →
        fs.existsAt file_path = true → request.overwrite = false →
        (create_file sm fs request).2.success = false
          ∧ (create_file sm fs request).1 = fs)
    ∧ (∀ file_path bytes, get_safe_path sm request.path = some file_path →
        validate_file_extension sm file_path = true →
        encodeStr request.encoding request.content = some bytes →
        validate_file_size sm bytes.length = true →
        (fs.existsAt file_path = true → request.overwrite = true) →
        fs.lookup file_path ≠ some Entry.dir →
        (∀ q : AbsPath, q <+: file_path.dropLast → fs.isFileAt q = false) →
        (create_file sm fs request).2.success = true
          ∧ (create_file sm fs request).1.readFile file_path = some bytes
          ∧ (create_file sm fs request).1.isDirAt file_path.dropLast = true) := by
  refine ⟨?_, ?_, ?_, ?_, ?_, ?_⟩
  · intro hg
    unfold create_file
    rw [hg]
    exact ⟨rfl, rfl⟩
  · intro file_path hg hext
    unfold create_file
    rw [hg]
    dsimp only
    rw [if_pos (show (! validate_file_extension sm file_path) = true by rw [hext]; rfl)]
    exact ⟨rfl, rfl⟩
  · intro hence
    unfold create_file
    cases hg : get_safe_path sm request.path with
    | none => exact ⟨rfl, rfl⟩
    | some file_path =>
      dsimp only
      by_cases hext : (! validate_file_extension sm file_path) = true
      · rw [if_pos hext]
        exact ⟨rfl, rfl⟩
      · rw [if_neg hext]
        rw [hence]
        exact ⟨rfl, rfl⟩
  · intro bytes hbytes hsize
    unfold create_file
    cases hg : get_safe_path sm request.path with
    | none => exact ⟨rfl, rfl⟩
    | some file_path =>
      dsimp only
      by_cases hext : (! validate_file_extension sm file_path) = true
      · rw [if_pos hext]
        exact ⟨rfl, rfl⟩
      · rw [if_neg hext]
        rw [hbytes]
        dsimp only
        rw [if_pos (show (! validate_file_size sm bytes.length) = true
          by rw [hsize]; rfl)]
        exact ⟨rfl, rfl⟩
  · intro file_path hg hexists how
    unfold create_file
    rw [hg]
    dsimp only
    by_cases hext : (! validate_file_extension sm file_path) = true
    · rw [if_pos hext]
      exact ⟨rfl, rfl⟩
    · rw [if_neg hext]
      cases hbytes : encodeStr request.encoding request.content with
      | none => exact ⟨rfl, rfl⟩
      | some bytes =>
        dsimp only
        by_cases hsize : (! validate_file_size sm bytes.length) = true
        · rw [if_pos hsize]
          exact ⟨rfl, rfl⟩
        · rw [if_neg hsize]
          rw [if_pos (show (fs.existsAt file_path && ! request.overwrite) = true
            by rw [hexists, how]; rfl)]
          exact ⟨rfl, rfl⟩
  · intro file_path bytes hg hext hbytes hsize how hdir hanc
    unfold create_file
    rw [hg]
    dsimp only
    rw [if_neg (by rw [hext]; simp)]
    rw [hbytes]
    dsimp only
    rw [if_neg (by rw [hsize]; simp)]
    have hex : (fs.existsAt file_path && ! request.overwrite) = false := by
      cases hE : fs.existsAt file_path with
      | false => rfl
      | true => rw [how hE]; rfl
    rw [if_neg (by rw [hex]; simp)]
    have hanc' : ∀ q : AbsPath, q <+: (file_path.dropLast.reverse).reverse →
        fs.isFileAt q = false := by
      intro q hq
      rw [List.reverse_reverse] at hq
      exact hanc q hq
    obtain ⟨fs1, hmk, hdir1, hpres1⟩ := mkdirRev_ok fs file_path.dropLast.reverse hanc'
    have hmk' : fs.mkdir file_path.dropLast true true = .ok fs1 := by
      unfold FS.mkdir
      exact hmk
    rw [hmk']
    dsimp only
    rw [List.reverse_reverse] at hdir1
    have hlk1 : fs1.lookup file_path = fs.lookup file_path := by
      cases hfp : file_path with
      | nil =>
        rw [hfp] at hmk
        injection hmk with h1
        rw [← h1]
      | cons a t =>
        apply hpres1
        rw [List.length_reverse, List.length_dropLast, hfp, List.length_cons]
        omega
    have hw : fs1.writeFile file_path bytes
        = .ok (fs1.set file_path (.file bytes)) := by
      unfold FS.writeFile
      rw [hlk1]
      cases hL : fs.lookup file_path with
      | none =>
        dsimp only
        rw [if_pos hdir1]
      | some e =>
        cases e with
        | dir => exact absurd hL hdir
        | file c => rfl
    rw [hw]
    dsimp only
    refine ⟨rfl, readFile_set_file fs1 file_path bytes, ?_⟩
    by_cases hfp : file_path = []
    · rw [hfp]
      rfl
    · have hne : file_path.dropLast ≠ file_path := by
        intro he
        have hcon := congrArg List.length he
        rw [List.length_dropLast] at hcon
        have hpos : 0 < file_path.length := List.length_pos.mpr hfp
        omega
      unfold FS.isDirAt at hdir1 ⊢
      rw [lookup_set_ne _ _ _ _ hne]
      exact hdir1

/-- C4 witness: the spec scenario — creating `app.exe` under allow-list
`["txt"]` is denied with the filesystem untouched. -/
theorem create_file_behavior_witness :
    (create_file demoSM demoFS
        ⟨"app.exe", "payload", false, PyEncoding.utf8⟩).2.success = false
      ∧ (create_file demoSM demoFS
          ⟨"app.exe", "payload", false, PyEncoding.utf8⟩).1 = demoFS :=
  (create_file_behavior demoSM demoFS
      ⟨"app.exe", "payload", false, PyEncoding.utf8⟩).2.1
    ["data", "app.exe"] (by decide) (by decide)

theorem lookup_none_of_not_exists (fs : FS) (p : AbsPath)
    (h : fs.existsAt p = false) : fs.lookup p = none := by
  unfold FS.existsAt at h
  cases hl : fs.lookup p with
  | none => rfl
  | some e =>
    rw [hl] at h
    simp at h

theorem mkdir_exists_error (fs : FS) (p : AbsPath) (parents : Bool)
    (hex : fs.existsAt p = true ∨ p = []) :
    fs.mkdir p parents false = .error .fileExists := by
  unfold FS.mkdir
  cases hrp : p.reverse with
  | nil =>
    unfold FS.mkdirRev
    rfl
  | cons seg rtail =>
    have hpr : (seg :: rtail).reverse = p := by
      rw [← hrp, List.reverse_reverse]
    unfold FS.mkdirRev
    rw [hpr]
    cases hex with
    | inr hnil =>
      rw [hnil] at hrp
      simp at hrp
    | inl hexi =>
      unfold FS.existsAt at hexi
      cases hl : fs.lookup p with
      | none =>
        rw [hl] at hexi
        simp at hexi
      | some e =>
        cases e with
        | dir => rfl
        | file c => rfl

/-- C7 counterexample: creating `a/b` non-recursively while the ancestor
`a` is missing fails through the generic catch-all wrapper (the same
"Ошибка создания директории: ..." message format used for every
unclassified exception), not through a distinct, specifically-named
error. -/
theorem create_directory_missing_ancestor_generic :
    (create_directory demoSM demoFS ⟨"a/b", false⟩).2
      = { path := "a/b", operation := "create_directory", success := false,
          message := some (genericDirCreateMsg OsError.fileNotFound) } := by
  rfl

/-- C7 (amended): on a safe path, `create_directory` fails with the
dedicated already-exists message when the target exists; when `recursive`
is false and the parent is missing, it fails with the generic
creation-failure message wrapping the OS not-found error (not through a
specifically-named error); otherwise the directory is created, with
missing ancestors created only when `recursive` is true. -/
theorem create_directory_behavior (sm : SecurityManager) (fs : FS)
    (request : DirectoryCreateRequest) :
    (∀ dir_path, get_safe_path sm request.path = some dir_path →
      fs.existsAt dir_path = true →
      (create_directory sm fs request).2.success = false
        ∧ (create_directory sm fs request).2.message
            = some "Директория уже существует"
        ∧ (create_directory sm fs request).1 = fs)
    ∧ (∀ dir_path, get_safe_path sm request.path = some dir_path →
        request.recursive = false → dir_path ≠ [] →
        fs.existsAt dir_path = false →
        fs.isDirAt dir_path.dropLast = false →
        fs.isFileAt dir_path.dropLast = false →
        (create_directory sm fs request).2.success = false
          ∧ (create_directory sm fs request).2.message
              = some (genericDirCreateMsg .fileNotFound)
          ∧ (create_directory sm fs request).1 = fs)
    ∧ (∀ dir_path, get_safe_path sm request.path = some dir_path →
        dir_path ≠ [] →
        fs.existsAt dir_path = false →
        fs.isDirAt dir_path.dropLast = true →
        (create_directory sm fs request).2.success = true
          ∧ (create_directory sm fs request).1.isDirAt dir_path = true)
    ∧ (∀ dir_path, get_safe_path sm request.path = some dir_path →
        request.recursive = true → dir_path ≠ [] →
        fs.existsAt dir_path = false →
        (∀ q : AbsPath, q <+: dir_path → fs.isFileAt q = false) →
        (create_directory sm fs request).2.success = true
          ∧ (create_directory sm fs request).1.isDirAt dir_path = true) := by
  refine ⟨?_, ?_, ?_, ?_⟩
  · intro dir_path hg hexists
    unfold create_directory
    rw [hg]
    dsimp only
    rw [mkdir_exists_error fs dir_path request.recursive (Or.inl hexists)]
    exact ⟨rfl, rfl, rfl⟩
  · intro dir_path hg hrec hne hex hd hf
    unfold create_directory
    rw [hg]
    dsimp only
    have hmk : fs.mkdir dir_path request.recursive false
        = .error .fileNotFound := by
      unfold FS.mkdir
      cases hrp : dir_path.reverse with
      | nil =>
        exfalso
        apply hne
        rw [← List.reverse_reverse dir_path, hrp]
        rfl
      | cons seg rtail =>
        have hpr : (seg :: rtail).reverse = dir_path := by
          rw [← hrp, List.reverse_reverse]
        have htr : rtail.reverse = dir_path.dropLast := by
          rw [← hpr, List.reverse_cons, List.dropLast_concat]
        unfold FS.mkdirRev
        rw [hpr, htr, lookup_none_of_not_exists fs dir_path hex]
        dsimp only
        rw [if_neg (by rw [hd]; simp), if_neg (by rw [hf]; simp)]
        rw [hrec]
        rfl
    rw [hmk]
    exact ⟨rfl, rfl, rfl⟩
  · intro dir_path hg hne hex hd
    unfold create_directory
    rw [hg]
    dsimp only
    have hmk : fs.mkdir dir_path request.recursive false
        = .ok (fs.set dir_path .dir) := by
      unfold FS.mkdir
      cases hrp : dir_path.reverse with
      | nil =>
        exfalso
        apply hne
        rw [← List.reverse_reverse dir_path, hrp]
        rfl
      | cons seg rtail =>
        have hpr : (seg :: rtail).reverse = dir_path := by
          rw [← hrp, List.reverse_reverse]
        have htr : rtail.reverse = dir_path.dropLast := by
          rw [← hpr, List.reverse_cons, List.dropLast_concat]
        unfold FS.mkdirRev
        rw [hpr, htr, lookup_none_of_not_exists fs dir_path hex]
        dsimp only
        rw [if_pos hd]
    rw [hmk]
    refine ⟨rfl, ?_⟩
    unfold FS.isDirAt
    rw [lookup_set_self]
    simp
  · intro dir_path hg hrec hne hex hanc
    unfold create_directory
    rw [hg]
    dsimp only
    have hl := lookup_none_of_not_exists fs dir_path hex
    have hmk : ∃ fs2, fs.mkdir dir_path request.recursive false = .ok fs2
        ∧ fs2.isDirAt dir_path = true := by
      unfold FS.mkdir
      cases hrp : dir_path.reverse with
      | nil =>
        exfalso
        apply hne
        rw [← List.reverse_reverse dir_path, hrp]
        rfl
      | cons seg rtail =>
        have hpr : (seg :: rtail).reverse = dir_path := by
          rw [← hrp, List.reverse_reverse]
        have htr : rtail.reverse = dir_path.dropLast := by
          rw [← hpr, List.reverse_cons, List.dropLast_concat]
        unfold FS.mkdirRev
        rw [hpr, htr, hl]
        dsimp only
        by_cases hd : fs.isDirAt dir_path.dropLast = true
        · rw [if_pos hd]
          refine ⟨_, rfl, ?_⟩
          unfold FS.isDirAt
          rw [lookup_set_self]
          simp
        · rw [if_neg hd]
          rw [if_neg (by
            rw [hanc dir_path.dropLast (dropLast_isPrefix _)]
            simp)]
          rw [hrec]
          rw [if_pos rfl]
          have hanc2 : ∀ q : AbsPath, q <+: rtail.reverse →
              fs.isFileAt q = false := by
            intro q hq
            rw [htr] at hq
            exact hanc q (hq.trans (dropLast_isPrefix _))
          obtain ⟨fs2, hmk2, hdir2, hp2⟩ := mkdirRev_ok fs rtail hanc2
          rw [hmk2]
          refine ⟨_, rfl, ?_⟩
          unfold FS.isDirAt
          rw [lookup_set_self]
          simp
    obtain ⟨fs2, hmkeq, hdir⟩ := hmk
    rw [hmkeq]
    exact ⟨rfl, hdir⟩

/-- C7 witness: creating `newdir` non-recursively directly under the root
succeeds. -/
theorem create_directory_behavior_witness :
    (create_directory demoSM demoFS ⟨"newdir", false⟩).2.success = true
      ∧ (create_directory demoSM demoFS ⟨"newdir", false⟩).1.isDirAt
          ["data", "newdir"] = true :=
  (create_directory_behavior demoSM demoFS ⟨"newdir", false⟩).2.2.1
    ["data", "newdir"] (by decide) (by decide) (by decide) (by decide)

theorem existsAt_of_mem (fs : FS) (x : AbsPath × Entry) (hx : x ∈ fs) :
    fs.existsAt x.1 = true := by
  unfold FS.existsAt FS.lookup
  induction fs with
  | nil => cases hx
  | cons y t ih =>
    rw [find?_key_cons]
    by_cases hy : y.1 = x.1
    · rw [if_pos hy]
      rfl
    · rw [if_neg hy]
      cases List.mem_cons.mp hx with
      | inl he => exact absurd (congrArg Prod.fst he).symm hy
      | inr ht => exact ih ht

theorem children_mem (fs : FS) (p : AbsPath) (x : AbsPath × Entry)
    (hx : x ∈ fs.children p) :
    x ∈ fs ∧ x.1 = p ++ [x.1.getLastD ""] := by
  unfold FS.children at hx
  obtain ⟨hmem, hcond⟩ := List.mem_filter.mp hx
  refine ⟨hmem, ?_⟩
  simp only [Bool.and_eq_true, beq_iff_eq] at hcond
  obtain ⟨hdrop, hlen⟩ := hcond
  have hne : x.1 ≠ [] := List.length_pos.mp (by omega)
  have hsplit := List.dropLast_append_getLast hne
  rw [hdrop] at hsplit
  have hlast : x.1.getLastD "" = x.1.getLast hne := by
    rw [List.getLastD_eq_getLast?, List.getLast?_eq_getLast x.1 hne]
    rfl
  rw [hlast]
  exact hsplit.symm

theorem mkFileInfo_name (sm : SecurityManager) (x : AbsPath × Entry) :
    (mkFileInfo sm x).name = x.1.getLastD "" := by
  rcases x with ⟨xp, xe⟩
  cases xe <;> rfl

instance : IsTotal FileInfo nameLe :=
  ⟨fun a b => le_total (lowerStr a.name) (lowerStr b.name)⟩

instance : IsTrans FileInfo nameLe :=
  ⟨fun _ _ _ hab hbc => le_trans hab hbc⟩

/-- C6: a successful listing reports `total_count` as the sum of both
partition sizes, contains no dot-initial names, flags the partitions
correctly, draws every entry from the immediate children of the listed
directory, and returns each partition sorted case-insensitively by name. -/
theorem list_directory_spec (sm : SecurityManager) (fs : FS)
    (relative_path : String) (resp : FileListResponse)
    (h : list_directory sm fs relative_path = .ok resp) :
    ∃ dir_path,
      get_safe_path sm (if relative_path = "" then "." else relative_path)
          = some dir_path
      ∧ resp.total_count = resp.files.length + resp.directories.length
      ∧ (∀ info ∈ resp.files, startsWithDot info.name = false
          ∧ info.is_directory = false
          ∧ fs.existsAt (dir_path ++ [info.name]) = true)
      ∧ (∀ info ∈ resp.directories, startsWithDot info.name = false
          ∧ info.is_directory = true
          ∧ fs.existsAt (dir_path ++ [info.name]) = true)
      ∧ resp.files.Sorted nameLe
      ∧ resp.directories.Sorted nameLe := by
  unfold list_directory at h
  cases hg : get_safe_path sm (if relative_path = "" then "." else relative_path) with
  | none =>
    rw [hg] at h
    exact Except.noConfusion h
  | some dir_path =>
    rw [hg] at h
    dsimp only at h
    by_cases hex : (! fs.existsAt dir_path) = true
    · rw [if_pos hex] at h
      exact Except.noConfusion h
    · rw [if_neg hex] at h
      by_cases hdir : (! fs.isDirAt dir_path) = true
      · rw [if_pos hdir] at h
        exact Except.noConfusion h
      · rw [if_neg hdir] at h
        injection h with hresp
        subst hresp
        refine ⟨dir_path, rfl, rfl, ?_, ?_, ?_, ?_⟩
        · intro info hinfo
          rw [List.mem_insertionSort] at hinfo
          obtain ⟨hmem, hflag⟩ := List.mem_filter.mp hinfo
          obtain ⟨x, hxvis, hmkx⟩ := List.mem_map.mp hmem
          obtain ⟨hchild, hdot⟩ := List.mem_filter.mp hxvis
          obtain ⟨hxfs, hxkey⟩ := children_mem fs dir_path x hchild
          have hname : info.name = x.1.getLastD "" := by
            rw [← hmkx, mkFileInfo_name]
          refine ⟨?_, ?_, ?_⟩
          · rw [hname]
            rw [Bool.not_eq_true'] at hdot
            exact hdot
          · rw [Bool.not_eq_true'] at hflag
            exact hflag
          · rw [hname, ← hxkey]
            exact existsAt_of_mem fs x hxfs
        · intro info hinfo
          rw [List.mem_insertionSort] at hinfo
          obtain ⟨hmem, hflag⟩ := List.mem_filter.mp hinfo
          obtain ⟨x, hxvis, hmkx⟩ := List.mem_map.mp hmem
          obtain ⟨hchild, hdot⟩ := List.mem_filter.mp hxvis
          obtain ⟨hxfs, hxkey⟩ := children_mem fs dir_path x hchild
          have hname : info.name = x.1.getLastD "" := by
            rw [← hmkx, mkFileInfo_name]
          refine ⟨?_, hflag, ?_⟩
          · rw [hname]
            rw [Bool.not_eq_true'] at hdot
            exact hdot
          · rw [hname, ← hxkey]
            exact existsAt_of_mem fs x hxfs
        · exact List.sorted_insertionSort nameLe _
        · exact List.sorted_insertionSort nameLe _

/-- A filesystem with a visible file, a hidden file and a subdirectory
under the sandbox root. -/
def demoFS6 : FS :=
  [(["data"], Entry.dir),
   (["data", "b.txt"], Entry.file [120]),
   (["data", ".hid"], Entry.file [122]),
   (["data", "sub"], Entry.dir)]

/-- The listing `list_directory` produces for `demoFS6` at the root. -/
def demoResp : FileListResponse :=
  { path := "."
    files := [{ name := "b.txt", path := "b.txt", size := 1,
                is_directory := false, checksum := some "d" }]
    directories := [{ name := "sub", path := "sub", size := 0,
                      is_directory := true, checksum := none }]
    total_count := 2 }

/-- C6 witness: listing the demo root hides `.hid`, partitions `b.txt` and
`sub`, and reports a total of 2. -/
theorem list_directory_spec_witness :
    ∃ dir_path,
      get_safe_path demoSM (if "" = "" then "." else "") = some dir_path
      ∧ demoResp.total_count = demoResp.files.length + demoResp.directories.length
      ∧ (∀ info ∈ demoResp.files, startsWithDot info.name = false
          ∧ info.is_directory = false
          ∧ demoFS6.existsAt (dir_path ++ [info.name]) = true)
      ∧ (∀ info ∈ demoResp.directories, startsWithDot info.name = false
          ∧ info.is_directory = true
          ∧ demoFS6.existsAt (dir_path ++ [info.name]) = true)
      ∧ demoResp.files.Sorted nameLe
      ∧ demoResp.directories.Sorted nameLe :=
  list_directory_spec demoSM demoFS6 "" demoResp (by rfl)

theorem batchLoop_spec (sm : SecurityManager) (coe : Bool) :
    ∀ (ops : List BatchOp) (fs : FS),
      (batchLoop sm coe fs ops).2.1.length ≤ ops.length
      ∧ (batchLoop sm coe fs ops).2.2.2
          = ((batchLoop sm coe fs ops).2.1.filter (fun e => e.success)).length
      ∧ (batchLoop sm coe fs ops).2.2.2
          + ((batchLoop sm coe fs ops).2.1.filter (fun e => ! e.success)).length
          = (batchLoop sm coe fs ops).2.1.length
      ∧ (batchLoop sm coe fs ops).2.2.1
          = ((batchLoop sm coe fs ops).2.1.filter (fun e => ! e.success)).map
              (fun e => { path := e.path, ty := e.ty, error := e.message })
      ∧ (coe = true → (batchLoop sm coe fs ops).2.1.length = ops.length)
      ∧ (batchLoop sm coe fs ops).2.1.map (fun e => (e.path, e.ty))
          <+: ops.map (fun op => (op.opPath, op.opType)) := by
  intro ops
  induction ops with
  | nil =>
    intro fs
    exact ⟨Nat.le_refl 0, rfl, rfl, rfl, fun _ => rfl, ⟨[], rfl⟩⟩
  | cons op rest ih =>
    intro fs
    unfold batchLoop
    cases hr : runBatchOp sm fs op with
    | ok pr =>
      rcases pr with ⟨fs1, result⟩
      dsimp only
      by_cases hs : result.success = true
      · rw [if_pos hs]
        obtain ⟨ih1, ih2, ih3, ih4, ih5, ih6⟩ := ih fs1
        dsimp only
        refine ⟨?_, ?_, ?_, ?_, ?_, ?_⟩
        · simp only [List.length_cons]
          omega
        · simp [List.filter_cons, hs]
          omega
        · simp [List.filter_cons, hs]
          omega
        · simp [List.filter_cons, hs]
          exact ih4
        · intro hcoe
          simp only [List.length_cons, ih5 hcoe]
        · simp only [List.map_cons]
          exact List.cons_prefix_cons.mpr ⟨rfl, ih6⟩
      · rw [if_neg hs]
        rw [Bool.not_eq_true] at hs
        by_cases hc : coe = true
        · rw [if_pos hc]
          obtain ⟨ih1, ih2, ih3, ih4, ih5, ih6⟩ := ih fs1
          dsimp only
          refine ⟨?_, ?_, ?_, ?_, ?_, ?_⟩
          · simp only [List.length_cons]
            omega
          · simp [List.filter_cons, hs]
            omega
          · simp [List.filter_cons, hs]
            omega
          · simp [List.filter_cons, hs]
            exact ih4
          · intro _
            simp only [List.length_cons, ih5 hc]
          · simp only [List.map_cons]
            exact List.cons_prefix_cons.mpr ⟨rfl, ih6⟩
        · rw [if_neg hc]
          refine ⟨?_, ?_, ?_, ?_, ?_, ?_⟩
          · simp
          · simp [List.filter_cons, hs]
          · simp [List.filter_cons, hs]
          · simp [List.filter_cons, hs]
          · intro hcoe
            exact absurd hcoe hc
          · simp only [List.map_cons]
            exact List.cons_prefix_cons.mpr ⟨rfl, ⟨_, rfl⟩⟩
    | error msg =>
      dsimp only
      by_cases hc : coe = true
      · rw [if_pos hc]
        obtain ⟨ih1, ih2, ih3, ih4, ih5, ih6⟩ := ih fs
        dsimp only
        refine ⟨?_, ?_, ?_, ?_, ?_, ?_⟩
        · simp only [List.length_cons]
          omega
        · simp [List.filter_cons]
          omega
        · simp [List.filter_cons]
          omega
        · simp [List.filter_cons]
          exact ih4
        · intro _
          simp only [List.length_cons, ih5 hc]
        · simp only [List.map_cons]
          exact List.cons_prefix_cons.mpr ⟨rfl, ih6⟩
      · rw [if_neg hc]
        refine ⟨?_, ?_, ?_, ?_, ?_, ?_⟩
        · simp
        · simp [List.filter_cons]
        · simp [List.filter_cons]
        · simp [List.filter_cons]
        · intro hcoe
          exact absurd hcoe hc
        · simp only [List.map_cons]
          exact List.cons_prefix_cons.mpr ⟨rfl, ⟨_, rfl⟩⟩

/-- C8 counterexample: a two-operation batch whose first operation fails
with continue_on_error = false stops immediately; the response reports 2
total operations but its results list has a single entry, so it is not
length-aligned with the input. -/
theorem batch_results_shorter_when_stopping :
    (batch_operations demoSM demoFS
        ⟨[BatchOp.unknownOp "x" "bogus", BatchOp.deleteOp "y"],
          false⟩).total_operations = 2
    ∧ (batch_operations demoSM demoFS
        ⟨[BatchOp.unknownOp "x" "bogus", BatchOp.deleteOp "y"],
          false⟩).results.length = 1 := by
  decide

/-- C8 (amended): the batch response reports total/succeeded/failed counts;
the results list is an index-aligned prefix of the input (of equal length
whenever continue_on_error is true, shorter only when a failure stops the
loop), and the errors list is exactly the failed subset of the results. -/
theorem batch_operations_spec (sm : SecurityManager) (fs : FS)
    (request : BatchOperationRequest) :
    (batch_operations sm fs request).total_operations
        = request.operations.length
    ∧ (batch_operations sm fs request).successful_operations
        = ((batch_operations sm fs request).results.filter
            (fun e => e.success)).length
    ∧ (batch_operations sm fs request).failed_operations
        = (batch_operations sm fs request).total_operations
          - (batch_operations sm fs request).successful_operations
    ∧ (request.continue_on_error = true →
        (batch_operations sm fs request).results.length
          = request.operations.length)
    ∧ (batch_operations sm fs request).results.map (fun e => (e.path, e.ty))
        <+: request.operations.map (fun op => (op.opPath, op.opType))
    ∧ (batch_operations sm fs request).errors
        = ((batch_operations sm fs request).results.filter
            (fun e => ! e.success)).map
            (fun e => { path := e.path, ty := e.ty, error := e.message }) := by
  obtain ⟨h1, h2, h3, h4, h5, h6⟩ :=
    batchLoop_spec sm request.continue_on_error request.operations fs
  exact ⟨rfl, h2, rfl, h5, h6, h4⟩

/-- A batch of three operations where the second fails (forbidden
extension) and execution continues. -/
def demoBatch : BatchOperationRequest :=
  { operations :=
      [BatchOp.mkdirOp "d1" ⟨"d1", false⟩,
       BatchOp.createOp "app.exe" ⟨"app.exe", "x", false, PyEncoding.utf8⟩,
       BatchOp.mkdirOp "d3" ⟨"d3", false⟩]
    continue_on_error := true }

/-- C8 witness: with continue_on_error = true, a 3-operation batch whose
second operation fails still yields 3 index-aligned results. -/
theorem batch_operations_spec_witness :
    (batch_operations demoSM demoFS demoBatch).results.length
      = demoBatch.operations.length :=
  (batch_operations_spec demoSM demoFS demoBatch).2.2.2.1 rfl

/-- C9: `failed_operations` always equals total minus successful, and
equals the number of never-attempted operations (those with no result
entry) plus the number of failures among the attempted ones — so when
continue_on_error is false and execution stops, the skipped operations are
all counted as failed even though they have no result entry. -/
theorem batch_failed_count (sm : SecurityManager) (fs : FS)
    (request : BatchOperationRequest) :
    (batch_operations sm fs request).failed_operations
        = (batch_operations sm fs request).total_operations
          - (batch_operations sm fs request).successful_operations
    ∧ (batch_operations sm fs request).failed_operations
        = ((batch_operations sm fs request).total_operations
            - (batch_operations sm fs request).results.length)
          + ((batch_operations sm fs request).results.filter
              (fun e => ! e.success)).length := by
  obtain ⟨h1, h2, h3, h4, h5, h6⟩ :=
    batchLoop_spec sm request.continue_on_error request.operations fs
  refine ⟨rfl, ?_⟩
  unfold batch_operations
  dsimp only
  omega

end RideFs
